import Mathlib

/-!
Verification of the Bob-Story-Bot crawler (`src/crawler.py`, `src/test_single.py`).

The development shallowly embeds the Python program in Lean:

* Python strings are modelled through their character lists (`String.data`);
  the handful of string primitives the crawler uses (`str.startswith`,
  `str.replace`, `str.strip`, `str.split`, `in`, `str.isdigit`, `int()` on
  digit strings) are embedded as executable functions on `List Char` so that
  every definition evaluates inside the kernel.
* Network and browser effects (Playwright page evaluation, HTTP requests) are
  modelled as explicit inputs: a rendered page becomes a data value, a
  request's outcome becomes an oracle argument.
* The watermark file becomes an `Option String` (absent file = `none`); the
  numeric watermark handled by `main` becomes an `Option Nat` (Python applies
  `int` to the loaded digit string and `str` before saving, and
  `int (str n) = n`).
-/

/-- Characters of the string literal `"http://"`. -/
def httpChars : List Char := ['h', 't', 't', 'p', ':', '/', '/']

/-- Characters of the string literal `"https://"`. -/
def httpsChars : List Char := ['h', 't', 't', 'p', 's', ':', '/', '/']

/-- Embedding of Python `url.replace("http://", "https://")` specialised to
this fixed pattern: every non-overlapping occurrence of `http://` is replaced
by `https://`, scanning left to right (CPython `str.replace` semantics). -/
def httpToHttps : List Char → List Char
  | [] => []
  | 'h' :: 't' :: 't' :: 'p' :: ':' :: '/' :: '/' :: rest =>
      httpsChars ++ httpToHttps rest
  | c :: rest => c :: httpToHttps rest

/-- Embedding of the inline URL normalization appearing in `download_image`
(`crawler.py` lines 43-46) and `send_slack` (lines 179-182):
`if url.startswith("http://"): url = url.replace("http://", "https://")`. -/
def normalizeUrl (url : String) : String :=
  if httpChars.isPrefixOf url.data then ⟨httpToHttps url.data⟩ else url

/-- Embedding of Python `str.strip()`: drop leading and trailing whitespace. -/
def pyStrip (s : String) : String :=
  ⟨((s.data.dropWhile Char.isWhitespace).reverse.dropWhile Char.isWhitespace).reverse⟩

/-- Embedding of Python `str.isdigit()` (restricted to ASCII digits, which is
what post ids consist of): true iff the string is non-empty and every
character is a digit. -/
def pyIsDigit (s : String) : Bool :=
  !s.data.isEmpty && s.data.all Char.isDigit

/-- Numeric value of a digit string, the embedding of Python `int()` applied
to the digit strings the crawler produces (post ids, the watermark file). -/
def digitsToNat (s : String) : Nat :=
  s.data.foldl (fun n c => n * 10 + (c.toNat - 48)) 0

/-- Embedding of Python `s.split(sep)` for a one-character separator. -/
def pySplit (sep : Char) : List Char → List (List Char)
  | [] => [[]]
  | c :: rest =>
      let r := pySplit sep rest
      if c = sep then [] :: r
      else
        match r with
        | [] => [[c]]
        | g :: gs => (c :: g) :: gs

/-- Embedding of the Python substring test `pat in s`. -/
def pyContains (pat : List Char) : List Char → Bool
  | [] => pat.isEmpty
  | c :: rest => pat.isPrefixOf (c :: rest) || pyContains pat rest

/-- Embedding of `load_last_post` (`crawler.py` lines 26-32); the file system
is modelled by the file's content, `none` when `last_post.txt` is absent.
Python returns the stripped content when it is truthy (non-empty) and `None`
otherwise. -/
def load_last_post (file : Option String) : Option String :=
  match file with
  | none => none
  | some content =>
      let s := pyStrip content
      if s = "" then none else some s

/-- One record of the list built by `crawl_latest_posts`
(`crawler.py` lines 445-450). -/
structure PostSummary where
  id : String
  title : String
  link : String
  is_pinned : Bool
deriving DecidableEq, Repr

/-- Numeric value `int(p["id"])` of a post's id (ids produced by
`crawl_latest_posts` are digit strings). -/
def pidNum (p : PostSummary) : Nat := digitsToNat p.id

/-- Embedding of `max(int(p["id"]) for p in posts)` (`crawler.py` line 546);
`main` only evaluates it on a non-empty list, where folding from `0` agrees
with Python `max` because the values are naturals. -/
def maxId (posts : List PostSummary) : Nat :=
  posts.foldl (fun m p => max m (pidNum p)) 0

/-- Stable insertion (ascending by numeric id) used to embed
`new_posts.sort(key=lambda x: int(x["id"]))` (`crawler.py` line 540). -/
def insertAsc (p : PostSummary) : List PostSummary → List PostSummary
  | [] => [p]
  | q :: qs => if pidNum p ≤ pidNum q then p :: q :: qs else q :: insertAsc p qs

/-- Stable ascending sort by numeric id; agrees with Python's stable
`list.sort` under the key `int(x["id"])`. -/
def sortAscById (l : List PostSummary) : List PostSummary :=
  l.foldr insertAsc []

/-- Stable insertion (descending by numeric id) used to embed
`posts.sort(key=lambda x: int(x["id"]), reverse=True)` (`crawler.py` line 453). -/
def insertDesc (p : PostSummary) : List PostSummary → List PostSummary
  | [] => [p]
  | q :: qs => if pidNum q ≤ pidNum p then p :: q :: qs else q :: insertDesc p qs

/-- Stable descending sort by numeric id; agrees with Python's stable
`list.sort` with `reverse=True` under the key `int(x["id"])`. -/
def sortDescById (l : List PostSummary) : List PostSummary :=
  l.foldr insertDesc []

/-- Embedding of `get_latest_non_pinned_post` (`crawler.py` lines 490-496):
first non-pinned post in list order, else the first post, else `None`. -/
def get_latest_non_pinned_post (posts : List PostSummary) : Option PostSummary :=
  match posts.find? (fun p => !p.is_pinned) with
  | some p => some p
  | none => posts.head?

/-- Result of one run of `main`: the list of posts handed to
`crawl_and_send_new_posts` in order, each paired with the delivery outcome of
its webhook POST, and the watermark value written by `save_last_post`
(`none` when the run returns before saving). -/
structure RunResult where
  sent : List (PostSummary × Bool)
  saved : Option Nat
deriving DecidableEq, Repr

/-- Embedding of the orchestration in `main` (`crawler.py` lines 509-548),
starting after `load_last_post`/`int` produced `last_id : Option Nat` and
`crawl_latest_posts` produced `posts`.  The webhook transport is the oracle
`deliver` (true = HTTP 200); `crawl_and_send_new_posts` sends each new post
exactly once in order, ignoring the response (lines 460-487, 262-266). -/
def mainRun (deliver : PostSummary → Bool) (last_id : Option Nat)
    (posts : List PostSummary) : RunResult :=
  if posts.isEmpty then ⟨[], none⟩
  else
    let new_posts :=
      match last_id with
      | some w => posts.filter (fun p => w < pidNum p)
      | none =>
          match get_latest_non_pinned_post posts with
          | some latest => [latest]
          | none => []
    if new_posts.isEmpty then ⟨[], none⟩
    else
      let ordered := sortAscById new_posts
      ⟨ordered.map (fun p => (p, deliver p)), some (maxId posts)⟩

/-- Stored watermark after running `main` once with stored watermark `w`
against feed `posts`: the saved value if the run saved, the old value
otherwise.  (`RunResult.saved` does not depend on the delivery oracle, proved
below, so the always-succeeding transport is used here.) -/
def nextWatermark (w : Nat) (posts : List PostSummary) : Nat :=
  ((mainRun (fun _ => true) (some w) posts).saved).getD w

/-- Channel id constant (`crawler.py` line 20). -/
def CHANNEL_ID : String := "_FNHuG"

/-- One anchor element of the rendered feed page, at the granularity the
Playwright API exposes to `crawl_latest_posts`: the `href` attribute
(`get_attribute` may return null), the inner text of the first `strong`
descendant if any (`query_selector("strong")`), and the result of evaluating
`el => el.parentElement.innerText` (which the code wraps in `try/except`, so
a throwing evaluation is an `Except.error`). -/
structure Anchor where
  href : Option String
  strongText : Option String
  parentText : Except String String
deriving Repr

/-- The record `crawl_latest_posts` builds from one anchor
(`crawler.py` lines 417-450), or `none` when the anchor is skipped.  The CSS
selector `a[href^="/_FNHuG/"]` (line 414) and the `if not href: continue`
guard are folded into the `href` tests here. -/
def anchorRecord (a : Anchor) : Option PostSummary :=
  match a.href with
  | none => none
  | some href =>
      if ("/" ++ CHANNEL_ID ++ "/").data.isPrefixOf href.data then
        let parts := pySplit '/' href.data
        if parts.length ≥ 3 then
          let post_id : String := ⟨parts.getD 2 []⟩
          if pyIsDigit post_id then
            some
              { id := post_id
                title := a.strongText.getD "제목 없음"
                link := "https://pf.kakao.com" ++ href
                is_pinned :=
                  match a.parentText with
                  | .ok t => pyContains "고정됨".data t.data
                  | .error _ => false }
          else none
        else none
      else none

/-- The accumulation loop of `crawl_latest_posts` (`crawler.py` lines
416-450): posts are appended in page order, an id already in `seen_ids`
is skipped (first occurrence wins). -/
def collectPosts : List Anchor → List PostSummary → List String → List PostSummary
  | [], acc, _ => acc
  | a :: rest, acc, seen =>
      match anchorRecord a with
      | none => collectPosts rest acc seen
      | some p =>
          if seen.contains p.id then collectPosts rest acc seen
          else collectPosts rest (acc ++ [p]) (p.id :: seen)

/-- Embedding of `crawl_latest_posts` (`crawler.py` lines 397-457) as a
function of the anchors present on the rendered feed page. -/
def crawl_latest_posts (anchors : List Anchor) : List PostSummary :=
  sortDescById (collectPosts anchors [] [])

/-- A rendered DOM node: an element with a tag, attributes and children, or a
text node.  A document is a forest `List DNode`. -/
inductive DNode where
  | elem (tag : String) (attrs : List (String × String)) (children : List DNode)
  | txt (s : String)
deriving Repr

/-- Children of a node (a text node has none). -/
def DNode.childNodes : DNode → List DNode
  | .elem _ _ cs => cs
  | .txt _ => []

/-- Attribute lookup on an element (JS property access such as `img.src`
yields the empty string when the attribute is absent; callers use `getD`). -/
def DNode.attr (n : DNode) (name : String) : Option String :=
  match n with
  | .elem _ attrs _ => (attrs.find? (fun kv => kv.1 == name)).map (fun kv => kv.2)
  | .txt _ => none

/-- Embedding of `querySelector(tag)`: first element with the given tag in
document (pre-)order, searching the whole subtree of each root. -/
def findTagF (t : String) : List DNode → Option DNode
  | [] => none
  | .txt _ :: rest => findTagF t rest
  | .elem tag attrs cs :: rest =>
      if tag = t then some (.elem tag attrs cs)
      else
        match findTagF t cs with
        | some r => some r
        | none => findTagF t rest

/-- Embedding of `querySelectorAll(tag)`: every element with the given tag,
in document (pre-)order. -/
def allTagsF (t : String) : List DNode → List DNode
  | [] => []
  | .txt _ :: rest => allTagsF t rest
  | .elem tag attrs cs :: rest =>
      (if tag = t then [DNode.elem tag attrs cs] else []) ++ allTagsF t cs ++ allTagsF t rest

/-- Embedding of a `TreeWalker` with `SHOW_TEXT`: the contents of all text
nodes of the forest, in document order. -/
def allTextsF : List DNode → List String
  | [] => []
  | .txt s :: rest => s :: allTextsF rest
  | .elem _ _ cs :: rest => allTextsF cs ++ allTextsF rest

/-- Approximation of the JS `innerText` property: concatenation of the
subtree's text nodes in document order. -/
def DNode.innerText : DNode → String
  | .txt s => s
  | .elem _ _ cs => String.join (allTextsF cs)

/-- Python/JS `sep.join(list)` semantics. -/
def joinSep (sep : String) : List String → String
  | [] => ""
  | x :: xs => xs.foldl (fun acc s => acc ++ sep ++ s) x

/-- The `excludeKeywords` array of the first page script
(`crawler.py` lines 288-290). -/
def excludeKeywords : List String :=
  ["QR", "프로필", "댓글", "소식", "채널홈", "폰으로", "접속해보세요", "고정됨",
   "공유하기", "좋아요", "카카오톡", "더보기"]

/-- The script's `shouldExclude`: true when the text contains any exclusion
keyword as a substring. -/
def shouldExclude (text : String) : Bool :=
  excludeKeywords.any (fun k => pyContains k.data text.data)

/-- Embedding of the first `page.evaluate` script of `crawl_post_detail`
(`crawler.py` lines 286-346): title from the first `strong` inside `article`
(kept only when non-empty and not excluded), body content from the first five
acceptable text nodes of `article`, and a `main`-scoped `strong` scan as the
fallback title source. -/
def postDataScript (doc : List DNode) : String × String :=
  let step1 : String × String :=
    match findTagF "article" doc with
    | none => ("", "")
    | some article =>
        let title :=
          match findTagF "strong" article.childNodes with
          | none => ""
          | some strong =>
              let text := pyStrip strong.innerText
              if text ≠ "" ∧ shouldExclude text = false then text else ""
        let textNodes := (allTextsF article.childNodes).filterMap (fun raw =>
          let text := pyStrip raw
          if text ≠ "" ∧ text.data.length > 2 ∧ text ≠ title ∧ shouldExclude text = false
          then some text else none)
        let content := if textNodes ≠ [] then joinSep "\n" (textNodes.take 5) else ""
        (title, content)
  if step1.1 = "" then
    match findTagF "main" doc with
    | none => step1
    | some m =>
        let cands := (allTagsF "strong" m.childNodes).map (fun s => pyStrip s.innerText)
        match cands.find? (fun text =>
            text ≠ "" && !shouldExclude text && text.data.length > 1) with
        | some t => (t, step1.2)
        | none => step1
  else step1

/-- Embedding of the second `page.evaluate` script (`crawler.py` lines
352-369): short paragraph texts (1-15 characters) without the four banned
substrings, deduplicated, in document order. -/
def menuNamesScript (doc : List DNode) : List String :=
  (allTagsF "p" doc).foldl (fun names p =>
    let text := pyStrip p.innerText
    if (text ≠ "" && text.data.length ≥ 1 && text.data.length ≤ 15
        && !pyContains "채널".data text.data && !pyContains "댓글".data text.data
        && !pyContains "접속".data text.data && !pyContains "폰으로".data text.data)
        && !names.contains text
    then names ++ [text] else names) []

/-- Embedding of the third `page.evaluate` script (`crawler.py` lines
374-387): `src` of every `img[alt="이미지"]`, non-empty, deduplicated, in
document order. -/
def imageUrlsScript (doc : List DNode) : List String :=
  ((allTagsF "img" doc).filter (fun n => n.attr "alt" == some "이미지")).foldl
    (fun urls n =>
      let src := (n.attr "src").getD ""
      if src ≠ "" && !urls.contains src then urls ++ [src] else urls) []

/-- The record `crawl_post_detail` returns (`crawler.py` lines 277-282). -/
structure PostDetail where
  title : String
  content : String
  menu_names : List String
  image_urls : List String
deriving DecidableEq, Repr

/-- The initial `result` dictionary of `crawl_post_detail`: all four fields
empty. -/
def emptyDetail : PostDetail := ⟨"", "", [], []⟩

/-- A rendered post page at the granularity `crawl_post_detail` consumes it:
the outcomes of its three `page.evaluate` calls.  An `Except.error` models a
raised exception (navigation failure, detached DOM, ...). -/
structure Page where
  postData : Except String (String × String)
  menuNames : Except String (List String)
  imageUrls : Except String (List String)

/-- Evaluation of the three scripts on a rendered document; on a well-formed
DOM the scripts themselves do not throw. -/
def Page.ofDoc (doc : List DNode) : Page :=
  ⟨.ok (postDataScript doc), .ok (menuNamesScript doc), .ok (imageUrlsScript doc)⟩

/-- Embedding of `crawl_post_detail` (`crawler.py` lines 269-394): the three
evaluate calls run inside one `try`, each assigning its field of `result`;
the first raised exception is caught and the fields assigned so far are
returned. -/
def crawl_post_detail (page : Page) : PostDetail :=
  match page.postData with
  | .error _ => emptyDetail
  | .ok (t, c) =>
      match page.menuNames with
      | .error _ => ⟨t, c, [], []⟩
      | .ok ms =>
          match page.imageUrls with
          | .error _ => ⟨t, c, ms, []⟩
          | .ok us => ⟨t, c, ms, us⟩

/-- The collage canvas `create_image_collage` builds: its pixel dimensions,
background colour, and the top-left paste coordinate of each thumbnail in
order (`collage.paste(img, (x, y))`). -/
structure Collage where
  width : Nat
  height : Nat
  background : Nat × Nat × Nat
  placements : List (Int × Int)
deriving DecidableEq, Repr

/-- Embedding of `create_image_collage` (`crawler.py` lines 57-99) as a
function of the download outcomes: `fetch url` is the size (width, height)
of the downloaded image after the RGB conversion and the
`thumbnail((thumb_size, thumb_size))` resize, or `none` when
`download_image` failed.  `math.ceil(num_images / cols)` on naturals is the
ceiling division `(num_images + cols - 1) / cols`; the `//`-offsets are
floor divisions on integers (`Int.fdiv`). -/
def create_image_collage (fetch : String → Option (Nat × Nat))
    (image_urls : List String) (thumb_size max_cols : Nat) : Option Collage :=
  let images := image_urls.filterMap fetch
  if images.isEmpty then none
  else
    let num_images := images.length
    let cols := min num_images max_cols
    let rows := (num_images + cols - 1) / cols
    some
      ⟨cols * thumb_size, rows * thumb_size, (255, 255, 255),
        images.enum.map (fun iwh =>
          let idx := iwh.1
          let x_offset := Int.fdiv ((thumb_size : Int) - (iwh.2.1 : Int)) 2
          let y_offset := Int.fdiv ((thumb_size : Int) - (iwh.2.2 : Int)) 2
          (((idx % cols) * thumb_size : Nat) + x_offset,
           ((idx / cols) * thumb_size : Nat) + y_offset))⟩

/-- One Slack Block Kit block as `send_slack` assembles them; only the
fields the claims mention are retained (header text, section markdown text,
image URL and alt text, the action button's link). -/
inductive Block where
  | header (text : String)
  | section (text : String)
  | divider
  | image (image_url : String) (alt_text : String)
  | actions (url : String)
  | context
deriving DecidableEq, Repr

/-- Outcome of the collage pipeline inside `send_slack` for three or more
images: `none` when `create_image_collage` returned `None`, `some none` when
the collage was built but `upload_image_to_host` failed, `some (some u)`
when the upload returned the hosted URL `u`. -/
def CollageOutcome : Type := Option (Option String)

/-- Embedding of the message construction in `send_slack` (`crawler.py`
lines 129-260): header, optional content section, optional menu section,
the three-tier image handling (lines 171-224), divider, link button and
context footer.  The network-dependent collage pipeline is the `collage`
argument. -/
def send_slack_blocks (title link content : String) (menu_names : List String)
    (image_urls : List String) (collage : CollageOutcome) : List Block :=
  let blocks : List Block := [.header ("📢 " ++ title)]
  let blocks := if content ≠ "" then blocks ++ [.section content] else blocks
  let blocks :=
    if menu_names ≠ [] then
      blocks ++ [.divider, .section ("*🍽️ 오늘의 메뉴*\n" ++ joinSep " • " menu_names)]
    else blocks
  let blocks :=
    if image_urls ≠ [] then
      let num_images := image_urls.length
      blocks ++ [.divider] ++
        (if num_images ≤ 2 then
          image_urls.enum.map (fun iu =>
            Block.image (normalizeUrl iu.2) ("메뉴 이미지 " ++ toString (iu.1 + 1)))
        else
          match collage with
          | some (some collage_url) =>
              [.image collage_url ("메뉴 이미지 (" ++ toString num_images ++ "개)")]
          | some none =>
              [.section ("_이미지 " ++ toString num_images ++ "개 (업로드 실패)_")]
          | none =>
              [.section ("_이미지 " ++ toString num_images ++ "개 (콜라주 생성 실패)_")])
    else blocks
  blocks ++ [.divider, .actions link, .context]

/-- Image URLs carried by a block list, in order. -/
def imagesOf (blocks : List Block) : List String :=
  blocks.filterMap (fun b =>
    match b with
    | .image u _ => some u
    | _ => none)

theorem insertAsc_perm (p : PostSummary) (l : List PostSummary) :
    (insertAsc p l).Perm (p :: l) := by
  induction l with
  | nil => simp [insertAsc]
  | cons q qs ih =>
      simp only [insertAsc]
      split
      · exact List.Perm.refl _
      · exact (ih.cons q).trans (List.Perm.swap p q qs)

theorem sortAscById_perm (l : List PostSummary) : (sortAscById l).Perm l := by
  induction l with
  | nil => simp [sortAscById]
  | cons x xs ih =>
      have : sortAscById (x :: xs) = insertAsc x (sortAscById xs) := rfl
      rw [this]
      exact (insertAsc_perm x (sortAscById xs)).trans (ih.cons x)

theorem insertAsc_sorted (p : PostSummary) (l : List PostSummary)
    (h : l.Pairwise (fun a b => pidNum a ≤ pidNum b)) :
    (insertAsc p l).Pairwise (fun a b => pidNum a ≤ pidNum b) := by
  induction l with
  | nil => simp [insertAsc]
  | cons q qs ih =>
      rw [List.pairwise_cons] at h
      simp only [insertAsc]
      split
      · rename_i hle
        refine List.pairwise_cons.mpr ⟨?_, List.pairwise_cons.mpr h⟩
        intro z hz
        rcases List.mem_cons.mp hz with hz | hz
        · exact hz ▸ hle
        · exact le_trans hle (h.1 z hz)
      · rename_i hgt
        refine List.pairwise_cons.mpr ⟨?_, ih h.2⟩
        intro z hz
        rcases List.mem_cons.mp ((insertAsc_perm p qs).mem_iff.mp hz) with hz | hz
        · exact hz ▸ le_of_not_le hgt
        · exact h.1 z hz

theorem sortAscById_sorted (l : List PostSummary) :
    (sortAscById l).Pairwise (fun a b => pidNum a ≤ pidNum b) := by
  induction l with
  | nil => simp [sortAscById]
  | cons x xs ih => exact insertAsc_sorted x (sortAscById xs) ih

theorem insertDesc_perm (p : PostSummary) (l : List PostSummary) :
    (insertDesc p l).Perm (p :: l) := by
  induction l with
  | nil => simp [insertDesc]
  | cons q qs ih =>
      simp only [insertDesc]
      split
      · exact List.Perm.refl _
      · exact (ih.cons q).trans (List.Perm.swap p q qs)

theorem sortDescById_perm (l : List PostSummary) : (sortDescById l).Perm l := by
  induction l with
  | nil => simp [sortDescById]
  | cons x xs ih =>
      have : sortDescById (x :: xs) = insertDesc x (sortDescById xs) := rfl
      rw [this]
      exact (insertDesc_perm x (sortDescById xs)).trans (ih.cons x)

theorem insertDesc_sorted (p : PostSummary) (l : List PostSummary)
    (h : l.Pairwise (fun a b => pidNum b ≤ pidNum a)) :
    (insertDesc p l).Pairwise (fun a b => pidNum b ≤ pidNum a) := by
  induction l with
  | nil => simp [insertDesc]
  | cons q qs ih =>
      rw [List.pairwise_cons] at h
      simp only [insertDesc]
      split
      · rename_i hle
        refine List.pairwise_cons.mpr ⟨?_, List.pairwise_cons.mpr h⟩
        intro z hz
        rcases List.mem_cons.mp hz with hz | hz
        · exact hz ▸ hle
        · exact le_trans (h.1 z hz) hle
      · rename_i hgt
        refine List.pairwise_cons.mpr ⟨?_, ih h.2⟩
        intro z hz
        rcases List.mem_cons.mp ((insertDesc_perm p qs).mem_iff.mp hz) with hz | hz
        · exact hz ▸ le_of_not_le hgt
        · exact h.1 z hz

theorem sortDescById_sorted (l : List PostSummary) :
    (sortDescById l).Pairwise (fun a b => pidNum b ≤ pidNum a) := by
  induction l with
  | nil => simp [sortDescById]
  | cons x xs ih => exact insertDesc_sorted x (sortDescById xs) ih

theorem le_maxId_foldl (l : List PostSummary) (a : Nat) :
    a ≤ l.foldl (fun m p => max m (pidNum p)) a := by
  induction l generalizing a with
  | nil => exact le_refl a
  | cons x xs ih => exact le_trans (le_max_left a (pidNum x)) (ih (max a (pidNum x)))

theorem mem_le_maxId_foldl (l : List PostSummary) (a : Nat) (p : PostSummary)
    (hp : p ∈ l) : pidNum p ≤ l.foldl (fun m p => max m (pidNum p)) a := by
  induction l generalizing a with
  | nil => cases hp
  | cons x xs ih =>
      rcases List.mem_cons.mp hp with h | h
      · subst h
        exact le_trans (le_max_right a (pidNum p)) (le_maxId_foldl xs _)
      · exact ih _ h

theorem pidNum_le_maxId (p : PostSummary) (posts : List PostSummary)
    (hp : p ∈ posts) : pidNum p ≤ maxId posts :=
  mem_le_maxId_foldl posts 0 p hp

theorem mainRun_nil (d : PostSummary → Bool) (last : Option Nat) :
    mainRun d last [] = ⟨[], none⟩ := rfl

theorem mainRun_filter_ne (d : PostSummary → Bool) (w : Nat)
    (posts : List PostSummary)
    (hf : posts.filter (fun p => w < pidNum p) ≠ []) :
    mainRun d (some w) posts =
      ⟨(sortAscById (posts.filter (fun p => w < pidNum p))).map (fun p => (p, d p)),
       some (maxId posts)⟩ := by
  have hne : posts ≠ [] := by
    intro h
    exact hf (by simp [h])
  simp only [mainRun]
  rw [if_neg (by simp [List.isEmpty_iff, hne]), if_neg (by simp [List.isEmpty_iff, hf])]

theorem mainRun_filter_eq (d : PostSummary → Bool) (w : Nat)
    (posts : List PostSummary)
    (hf : posts.filter (fun p => w < pidNum p) = []) :
    mainRun d (some w) posts = ⟨[], none⟩ := by
  by_cases hne : posts = []
  · subst hne; rfl
  · simp only [mainRun]
    rw [if_neg (by simp [List.isEmpty_iff, hne]), if_pos (by simp [List.isEmpty_iff, hf])]

theorem get_latest_mem (posts : List PostSummary) (p : PostSummary)
    (h : get_latest_non_pinned_post posts = some p) : p ∈ posts := by
  unfold get_latest_non_pinned_post at h
  rcases hf : posts.find? (fun p => !p.is_pinned) with _ | q
  · rw [hf] at h
    simp only at h
    exact List.mem_of_mem_head? h
  · rw [hf] at h
    simp only [Option.some.injEq] at h
    exact h ▸ List.mem_of_find?_eq_some hf

theorem mainRun_firstRun (d : PostSummary → Bool) (posts : List PostSummary)
    (hne : posts ≠ []) :
    ∃ p, get_latest_non_pinned_post posts = some p ∧
      mainRun d none posts = ⟨[(p, d p)], some (maxId posts)⟩ := by
  obtain ⟨x, xs, rfl⟩ := List.exists_cons_of_ne_nil hne
  have hsome : ∃ p, get_latest_non_pinned_post (x :: xs) = some p := by
    unfold get_latest_non_pinned_post
    rcases hf : (x :: xs).find? (fun p => !p.is_pinned) with _ | q
    · rw [hf]; exact ⟨x, rfl⟩
    · rw [hf]; exact ⟨q, rfl⟩
  obtain ⟨p, hp⟩ := hsome
  refine ⟨p, hp, ?_⟩
  simp only [mainRun, hp]
  rw [if_neg (by simp [List.isEmpty_iff]), if_neg (by simp [List.isEmpty_iff])]
  rfl

theorem mainRun_sent_shape (d : PostSummary → Bool) (last : Option Nat)
    (posts : List PostSummary) :
    (mainRun d last posts).sent =
      ((mainRun d last posts).sent.map Prod.fst).map (fun p => (p, d p)) ∧
    (mainRun d last posts).sent.map Prod.fst =
      (mainRun (fun _ => true) last posts).sent.map Prod.fst ∧
    (mainRun d last posts).saved = (mainRun (fun _ => true) last posts).saved := by
  rcases last with _ | w
  · by_cases hne : posts = []
    · subst hne; simp [mainRun_nil]
    · obtain ⟨p, hp, he⟩ := mainRun_firstRun d posts hne
      obtain ⟨p', hp', he'⟩ := mainRun_firstRun (fun _ => true) posts hne
      rw [hp] at hp'
      cases hp'
      rw [he, he']
      simp
  · by_cases hf : posts.filter (fun p => w < pidNum p) = []
    · rw [mainRun_filter_eq d w posts hf, mainRun_filter_eq (fun _ => true) w posts hf]
      simp
    · rw [mainRun_filter_ne d w posts hf, mainRun_filter_ne (fun _ => true) w posts hf]
      simp [List.map_map, Function.comp]

theorem mainRun_sent_mem (d : PostSummary → Bool) (last : Option Nat)
    (posts : List PostSummary) (pb : PostSummary × Bool)
    (hpb : pb ∈ (mainRun d last posts).sent) : pb.1 ∈ posts := by
  rcases last with _ | w
  · by_cases hne : posts = []
    · subst hne; rw [mainRun_nil] at hpb; cases hpb
    · obtain ⟨p, hp, he⟩ := mainRun_firstRun d posts hne
      rw [he] at hpb
      rcases List.mem_singleton.mp hpb with rfl
      exact get_latest_mem posts p hp
  · by_cases hf : posts.filter (fun p => w < pidNum p) = []
    · rw [mainRun_filter_eq d w posts hf] at hpb
      cases hpb
    · rw [mainRun_filter_ne d w posts hf] at hpb
      obtain ⟨q, hq, rfl⟩ := List.mem_map.mp hpb
      have := (sortAscById_perm _).mem_iff.mp hq
      exact (List.mem_filter.mp this).1

theorem mainRun_saved_cases (d : PostSummary → Bool) (last : Option Nat)
    (posts : List PostSummary) (v : Nat)
    (hv : (mainRun d last posts).saved = some v) : v = maxId posts := by
  rcases last with _ | w
  · by_cases hne : posts = []
    · subst hne; rw [mainRun_nil] at hv; cases hv
    · obtain ⟨p, hp, he⟩ := mainRun_firstRun d posts hne
      rw [he] at hv
      exact (Option.some.injEq _ _ ▸ hv).symm
  · by_cases hf : posts.filter (fun p => w < pidNum p) = []
    · rw [mainRun_filter_eq d w posts hf] at hv
      cases hv
    · rw [mainRun_filter_ne d w posts hf] at hv
      exact (Option.some.injEq _ _ ▸ hv).symm

theorem httpToHttps_append (t : List Char) :
    httpToHttps (httpChars ++ t) = httpsChars ++ httpToHttps t := rfl

theorem not_isPrefixOf_httpsChars (l : List Char) :
    httpChars.isPrefixOf (httpsChars ++ l) = false := by
  simp [httpChars, httpsChars, List.isPrefixOf]

theorem normalizeUrl_of_isPrefixOf (url : String)
    (h : httpChars.isPrefixOf url.data = true) :
    normalizeUrl url = ⟨httpsChars ++ httpToHttps (url.data.drop 7)⟩ := by
  obtain ⟨t, ht⟩ := List.isPrefixOf_iff_prefix.mp h
  have hdata : url.data = httpChars ++ t := ht.symm
  simp only [normalizeUrl, h, if_pos]
  rw [hdata, httpToHttps_append]
  have h7 : (7 : Nat) = httpChars.length := rfl
  rw [h7, List.drop_left]

/-- C6 counterexample: the claim says normalization modifies nothing besides
the scheme prefix, but Python `str.replace` rewrites every occurrence of
`http://`, so a URL with an embedded second `http://` is changed beyond its
prefix. -/
theorem url_normalization_counterexample :
    normalizeUrl "http://a/http://b" = "https://a/https://b" ∧
    normalizeUrl "http://a/http://b" ≠ "https://a/http://b" := by decide

/-- C6 (amended): when the URL begins with `http://`, normalization rewrites
every occurrence of the substring `http://` to `https://` (scanning left to
right); a URL not beginning with `http://` — in particular one already using
`https://` — is returned unchanged; and normalization is idempotent. -/
theorem url_normalization (url : String) :
    (httpChars.isPrefixOf url.data = false → normalizeUrl url = url) ∧
    (httpChars.isPrefixOf url.data = true →
      normalizeUrl url = ⟨httpsChars ++ httpToHttps (url.data.drop 7)⟩) ∧
    (httpsChars.isPrefixOf url.data = true → normalizeUrl url = url) ∧
    normalizeUrl (normalizeUrl url) = normalizeUrl url := by
  have hno : ∀ s : String, httpChars.isPrefixOf s.data = false → normalizeUrl s = s := by
    intro s hs
    simp [normalizeUrl, hs]
  refine ⟨hno url, normalizeUrl_of_isPrefixOf url, ?_, ?_⟩
  · intro h
    obtain ⟨t, ht⟩ := List.isPrefixOf_iff_prefix.mp h
    exact hno url (ht ▸ not_isPrefixOf_httpsChars t)
  · by_cases h : httpChars.isPrefixOf url.data = true
    · rw [normalizeUrl_of_isPrefixOf url h]
      exact hno _ (not_isPrefixOf_httpsChars _)
    · have e := hno url (Bool.eq_false_iff.mpr h)
      rw [e, e]

/-- C6 witness: both branches of the amended claim at concrete URLs. -/
theorem url_normalization_witness :
    (httpChars.isPrefixOf ("http://x" : String).data = true ∧
      normalizeUrl "http://x" =
        ⟨httpsChars ++ httpToHttps (("http://x" : String).data.drop 7)⟩) ∧
    (httpsChars.isPrefixOf ("https://y" : String).data = true ∧
      normalizeUrl "https://y" = "https://y") :=
  ⟨⟨by decide, (url_normalization "http://x").2.1 (by decide)⟩,
   ⟨by decide, (url_normalization "https://y").2.2.1 (by decide)⟩⟩

/-- C10: loading the watermark yields the no-watermark sentinel both when the
file is absent and when its content strips to the empty string, and `main`
then runs its first-run selection path exactly as with no file. -/
theorem empty_watermark_file (s : String) (h : pyStrip s = "")
    (d : PostSummary → Bool) (posts : List PostSummary) :
    load_last_post none = none ∧
    load_last_post (some s) = none ∧
    mainRun d ((load_last_post (some s)).map digitsToNat) posts =
      mainRun d none posts := by
  refine ⟨rfl, ?_, ?_⟩ <;> simp [load_last_post, h]

/-- C10 witness: a file containing only whitespace. -/
theorem empty_watermark_file_witness :
    pyStrip "  \n " = "" ∧
    (load_last_post none = none ∧
      load_last_post (some "  \n ") = none ∧
      mainRun (fun _ => true) ((load_last_post (some "  \n ")).map digitsToNat) [] =
        mainRun (fun _ => true) none []) :=
  ⟨by decide, empty_watermark_file "  \n " (by decide) (fun _ => true) []⟩

/-- C2: `crawl_post_detail` always returns a `PostDetail` with its four
fields; a script failure at any of the three evaluation points degrades the
not-yet-assigned fields to their empty defaults, and the empty document
yields the all-empty record. -/
theorem crawl_post_detail_never_throws :
    (∀ e mn iu, crawl_post_detail ⟨Except.error e, mn, iu⟩ = emptyDetail) ∧
    (∀ t c e iu,
      crawl_post_detail ⟨Except.ok (t, c), Except.error e, iu⟩ = ⟨t, c, [], []⟩) ∧
    (∀ t c ms e,
      crawl_post_detail ⟨Except.ok (t, c), Except.ok ms, Except.error e⟩ = ⟨t, c, ms, []⟩) ∧
    (∀ t c ms us,
      crawl_post_detail ⟨Except.ok (t, c), Except.ok ms, Except.ok us⟩ = ⟨t, c, ms, us⟩) ∧
    crawl_post_detail (Page.ofDoc []) = emptyDetail := by
  refine ⟨fun e mn iu => rfl, fun t c e iu => rfl, fun t c ms e => rfl,
    fun t c ms us => rfl, ?_⟩
  simp [crawl_post_detail, Page.ofDoc, postDataScript, menuNamesScript,
    imageUrlsScript, findTagF, allTagsF, allTextsF, emptyDetail]

theorem mainRun_saved_none_of_le (d : PostSummary → Bool) (w : Nat)
    (posts : List PostSummary) (h : ∀ p ∈ posts, pidNum p ≤ w) :
    (mainRun d (some w) posts).saved = none := by
  have hf : posts.filter (fun p => w < pidNum p) = [] := by
    rw [List.filter_eq_nil_iff]
    intro p hp
    simp [Nat.not_lt.mpr (h p hp)]
  rw [mainRun_filter_eq d w posts hf]

theorem le_nextWatermark (w : Nat) (posts : List PostSummary) :
    w ≤ nextWatermark w posts := by
  unfold nextWatermark
  by_cases hf : posts.filter (fun p => w < pidNum p) = []
  · rw [mainRun_filter_eq _ w posts hf]
    exact le_refl w
  · rw [mainRun_filter_ne _ w posts hf]
    obtain ⟨p, hp⟩ := List.exists_mem_of_ne_nil _ hf
    have hmem := List.mem_filter.mp hp
    have hlt : w < pidNum p := by simpa using hmem.2
    exact le_of_lt (lt_of_lt_of_le hlt (pidNum_le_maxId p posts hmem.1))

theorem nextWatermark_rerun (d : PostSummary → Bool) (w : Nat)
    (posts : List PostSummary) :
    (mainRun d (some (nextWatermark w posts)) posts).saved = none := by
  unfold nextWatermark
  by_cases hf : posts.filter (fun p => w < pidNum p) = []
  · rw [mainRun_filter_eq _ w posts hf]
    simp only [Option.getD_none]
    exact mainRun_saved_none_of_le d w posts (by
      intro p hp
      by_contra hc
      exact (List.filter_eq_nil_iff.mp hf) p hp (by simp [Nat.lt_of_not_le hc]))
  · rw [mainRun_filter_ne _ w posts hf]
    simp only [Option.getD_some]
    exact mainRun_saved_none_of_le d (maxId posts) posts
      (fun p hp => pidNum_le_maxId p posts hp)

/-- C3: the stored watermark never decreases across any sequence of runs; a
run with no fetched posts, or none whose id exceeds the watermark, writes
nothing; and rerunning against an unchanged feed writes nothing. -/
theorem watermark_monotonicity (d : PostSummary → Bool) (w : Nat)
    (posts : List PostSummary) (feeds : List (List PostSummary)) :
    w ≤ nextWatermark w posts ∧
    w ≤ feeds.foldl nextWatermark w ∧
    (mainRun d (some w) []).saved = none ∧
    ((∀ p ∈ posts, pidNum p ≤ w) → (mainRun d (some w) posts).saved = none) ∧
    (mainRun d (some (nextWatermark w posts)) posts).saved = none := by
  refine ⟨le_nextWatermark w posts, ?_, rfl,
    mainRun_saved_none_of_le d w posts, nextWatermark_rerun d w posts⟩
  induction feeds generalizing w with
  | nil => exact le_refl w
  | cons f fs ih =>
      exact le_trans (le_nextWatermark w f) (ih (nextWatermark w f))

/-- C3 witness: a feed whose ids do not exceed the watermark writes nothing. -/
theorem watermark_monotonicity_witness :
    (∀ p ∈ ([⟨"3", "t", "l", false⟩] : List PostSummary), pidNum p ≤ 5) ∧
    (mainRun (fun _ => true) (some 5) [⟨"3", "t", "l", false⟩]).saved = none :=
  ⟨by decide,
   (watermark_monotonicity (fun _ => true) 5 [⟨"3", "t", "l", false⟩] []).2.2.2.1
     (by decide)⟩

/-- C1 counterexample: with a stored watermark larger than every fetched id
the run ends without writing, so the persisted watermark does not become the
maximum id of the fetched list as the claim asserts for every non-empty
fetch. -/
theorem backfill_counterexample :
    (([⟨"101", "t", "l", false⟩] : List PostSummary) ≠ []) ∧
    (mainRun (fun _ => true) (some 200) [⟨"101", "t", "l", false⟩]).saved ≠
      some (maxId [⟨"101", "t", "l", false⟩]) := by decide

/-- C1 (amended): when a watermark `W` is stored and at least one fetched id
strictly exceeds `W`, the processed posts are exactly the fetched posts with
id above `W` (pinned or not), in ascending id order, and the saved watermark
is the maximum id over the entire fetched list. -/
theorem backfill_correctness (d : PostSummary → Bool) (w : Nat)
    (posts : List PostSummary) (hex : ∃ p ∈ posts, w < pidNum p) :
    ((mainRun d (some w) posts).sent.map Prod.fst).Perm
      (posts.filter (fun p => w < pidNum p)) ∧
    ((mainRun d (some w) posts).sent.map Prod.fst).Pairwise
      (fun a b => pidNum a ≤ pidNum b) ∧
    (mainRun d (some w) posts).saved = some (maxId posts) := by
  obtain ⟨p, hp, hlt⟩ := hex
  have hf : posts.filter (fun p => w < pidNum p) ≠ [] := by
    intro h
    exact (List.filter_eq_nil_iff.mp h) p hp (by simp [hlt])
  rw [mainRun_filter_ne d w posts hf]
  simp only [List.map_map]
  have hfst : (Prod.fst ∘ fun p => (p, d p)) = id := rfl
  rw [hfst, List.map_id]
  exact ⟨sortAscById_perm _, sortAscById_sorted _, trivial⟩

/-- C1 witness: the spec's own vector, watermark 103 against ids
101/103/105/107 (105 pinned, to show pinned status is ignored). -/
theorem backfill_correctness_witness :
    (∃ p ∈ ([⟨"107", "d", "l4", false⟩, ⟨"105", "c", "l3", true⟩,
             ⟨"103", "b", "l2", false⟩, ⟨"101", "a", "l1", false⟩] :
        List PostSummary), 103 < pidNum p) ∧
    (((mainRun (fun _ => true) (some 103)
        [⟨"107", "d", "l4", false⟩, ⟨"105", "c", "l3", true⟩,
         ⟨"103", "b", "l2", false⟩, ⟨"101", "a", "l1", false⟩]).sent.map
          Prod.fst).Perm
      (([⟨"107", "d", "l4", false⟩, ⟨"105", "c", "l3", true⟩,
         ⟨"103", "b", "l2", false⟩, ⟨"101", "a", "l1", false⟩] :
        List PostSummary).filter (fun p => 103 < pidNum p)) ∧
    ((mainRun (fun _ => true) (some 103)
        [⟨"107", "d", "l4", false⟩, ⟨"105", "c", "l3", true⟩,
         ⟨"103", "b", "l2", false⟩, ⟨"101", "a", "l1", false⟩]).sent.map
          Prod.fst).Pairwise (fun a b => pidNum a ≤ pidNum b) ∧
    (mainRun (fun _ => true) (some 103)
        [⟨"107", "d", "l4", false⟩, ⟨"105", "c", "l3", true⟩,
         ⟨"103", "b", "l2", false⟩, ⟨"101", "a", "l1", false⟩]).saved =
      some (maxId [⟨"107", "d", "l4", false⟩, ⟨"105", "c", "l3", true⟩,
         ⟨"103", "b", "l2", false⟩, ⟨"101", "a", "l1", false⟩])) :=
  ⟨by decide,
   backfill_correctness (fun _ => true) 103
     [⟨"107", "d", "l4", false⟩, ⟨"105", "c", "l3", true⟩,
      ⟨"103", "b", "l2", false⟩, ⟨"101", "a", "l1", false⟩] (by decide)⟩

/-- C8: the list of posts handed to delivery and the saved watermark do not
depend on the transport outcomes; each new post is attempted exactly once
with its outcome recorded (no retry, no abort); and whenever a watermark is
saved it covers every attempted post, including failed ones. -/
theorem delivery_failure_tolerance (d dOther : PostSummary → Bool)
    (last : Option Nat) (posts : List PostSummary) (v : Nat)
    (hv : (mainRun d last posts).saved = some v) :
    (mainRun d last posts).sent =
      ((mainRun d last posts).sent.map Prod.fst).map (fun p => (p, d p)) ∧
    (mainRun d last posts).sent.map Prod.fst =
      (mainRun dOther last posts).sent.map Prod.fst ∧
    (mainRun d last posts).saved = (mainRun dOther last posts).saved ∧
    ∀ pb ∈ (mainRun d last posts).sent, pidNum pb.1 ≤ v := by
  obtain ⟨h1, h2, h3⟩ := mainRun_sent_shape d last posts
  obtain ⟨h1o, h2o, h3o⟩ := mainRun_sent_shape dOther last posts
  refine ⟨h1, h2.trans h2o.symm, h3.trans h3o.symm, ?_⟩
  intro pb hpb
  have hmem := mainRun_sent_mem d last posts pb hpb
  have hvmax := mainRun_saved_cases d last posts v hv
  exact hvmax ▸ pidNum_le_maxId pb.1 posts hmem

/-- C8 witness: a run whose only delivery fails still saves the covering
watermark. -/
theorem delivery_failure_tolerance_witness :
    (mainRun (fun _ => false) (some 100) [⟨"101", "t", "l", false⟩]).saved =
      some 101 ∧
    ∀ pb ∈ (mainRun (fun _ => false) (some 100)
        [⟨"101", "t", "l", false⟩]).sent, pidNum pb.1 ≤ 101 :=
  ⟨by decide,
   (delivery_failure_tolerance (fun _ => false) (fun _ => true) (some 100)
     [⟨"101", "t", "l", false⟩] 101 (by decide)).2.2.2⟩

theorem find?_max_of_pairwise (f : PostSummary → Bool) (l : List PostSummary)
    (hs : l.Pairwise (fun a b => pidNum b ≤ pidNum a)) (p : PostSummary)
    (hf : l.find? f = some p) :
    ∀ q ∈ l, f q = true → pidNum q ≤ pidNum p := by
  induction l with
  | nil => cases hf
  | cons x xs ih =>
      rw [List.pairwise_cons] at hs
      rcases hfx : f x with _ | _
      · rw [List.find?_cons_of_neg _ (by simp [hfx])] at hf
        intro q hq hfq
        rcases List.mem_cons.mp hq with rfl | hq
        · rw [hfx] at hfq; cases hfq
        · exact ih hs.2 hf q hq hfq
      · rw [List.find?_cons_of_pos _ hfx] at hf
        cases hf
        intro q hq _
        rcases List.mem_cons.mp hq with rfl | hq
        · exact le_refl _
        · exact hs.1 q hq

/-- C4: with no stored watermark and a non-empty descending-sorted fetch,
exactly one post is selected: a non-pinned one whenever one exists, of
maximal id among the non-pinned; the overall maximal-id post when every post
is pinned; and an empty fetch selects nothing. -/
theorem first_run_selection (d : PostSummary → Bool) (posts : List PostSummary)
    (hne : posts ≠ [])
    (hsorted : posts.Pairwise (fun a b => pidNum b ≤ pidNum a)) :
    mainRun d none [] = ⟨[], none⟩ ∧
    ∃ p, get_latest_non_pinned_post posts = some p ∧
      (mainRun d none posts).sent.map Prod.fst = [p] ∧ p ∈ posts ∧
      ((∃ q ∈ posts, q.is_pinned = false) → p.is_pinned = false) ∧
      (∀ q ∈ posts, q.is_pinned = false → pidNum q ≤ pidNum p) ∧
      ((∀ q ∈ posts, q.is_pinned = true) → ∀ q ∈ posts, pidNum q ≤ pidNum p) := by
  obtain ⟨p, hp, he⟩ := mainRun_firstRun d posts hne
  refine ⟨rfl, p, hp, by rw [he]; rfl, get_latest_mem posts p hp, ?_⟩
  rcases hfind : posts.find? (fun r => !r.is_pinned) with _ | p'
  · have hall : ∀ q ∈ posts, q.is_pinned = true := by
      intro q hq
      have := List.find?_eq_none.mp hfind q hq
      simpa using this
    have hphead : posts.head? = some p := by
      unfold get_latest_non_pinned_post at hp
      rw [hfind] at hp
      exact hp
    obtain ⟨x, xs, rfl⟩ := List.exists_cons_of_ne_nil hne
    have hpx : p = x := by
      simp only [List.head?_cons, Option.some.injEq] at hphead
      exact hphead.symm
    subst hpx
    refine ⟨?_, ?_, ?_⟩
    · intro ⟨q, hq, hnq⟩
      exact absurd (hall q hq) (by simp [hnq])
    · intro q hq hnq
      exact absurd (hall q hq) (by simp [hnq])
    · intro _ q hq
      rcases List.mem_cons.mp hq with rfl | hq
      · exact le_refl _
      · exact (List.pairwise_cons.mp hsorted).1 q hq
  · have hpp : p = p' := by
      unfold get_latest_non_pinned_post at hp
      rw [hfind] at hp
      simpa using hp.symm
    subst hpp
    have hnp : p.is_pinned = false := by
      have := List.find?_some hfind
      simpa using this
    refine ⟨fun _ => hnp, ?_, ?_⟩
    · intro q hq hnq
      exact find?_max_of_pairwise _ posts hsorted p hfind q hq (by simp [hnq])
    · intro hall _ _
      exact absurd (hall p (get_latest_mem posts p hp)) (by simp [hnp])

/-- C4 witness: pinned newest post is skipped in favour of the highest-id
non-pinned post. -/
theorem first_run_selection_witness :
    (([⟨"9", "pinned", "l3", true⟩, ⟨"7", "b", "l2", false⟩,
       ⟨"5", "a", "l1", false⟩] : List PostSummary) ≠ [] ∧
     ([⟨"9", "pinned", "l3", true⟩, ⟨"7", "b", "l2", false⟩,
       ⟨"5", "a", "l1", false⟩] : List PostSummary).Pairwise
        (fun a b => pidNum b ≤ pidNum a)) ∧
    (mainRun (fun _ => true) none [] = ⟨[], none⟩ ∧
     ∃ p, get_latest_non_pinned_post
         [⟨"9", "pinned", "l3", true⟩, ⟨"7", "b", "l2", false⟩,
          ⟨"5", "a", "l1", false⟩] = some p ∧
       (mainRun (fun _ => true) none
          [⟨"9", "pinned", "l3", true⟩, ⟨"7", "b", "l2", false⟩,
           ⟨"5", "a", "l1", false⟩]).sent.map Prod.fst = [p] ∧
       p ∈ ([⟨"9", "pinned", "l3", true⟩, ⟨"7", "b", "l2", false⟩,
             ⟨"5", "a", "l1", false⟩] : List PostSummary) ∧
       ((∃ q ∈ ([⟨"9", "pinned", "l3", true⟩, ⟨"7", "b", "l2", false⟩,
                 ⟨"5", "a", "l1", false⟩] : List PostSummary),
           q.is_pinned = false) → p.is_pinned = false) ∧
       (∀ q ∈ ([⟨"9", "pinned", "l3", true⟩, ⟨"7", "b", "l2", false⟩,
                ⟨"5", "a", "l1", false⟩] : List PostSummary),
          q.is_pinned = false → pidNum q ≤ pidNum p) ∧
       ((∀ q ∈ ([⟨"9", "pinned", "l3", true⟩, ⟨"7", "b", "l2", false⟩,
                 ⟨"5", "a", "l1", false⟩] : List PostSummary),
           q.is_pinned = true) →
         ∀ q ∈ ([⟨"9", "pinned", "l3", true⟩, ⟨"7", "b", "l2", false⟩,
                 ⟨"5", "a", "l1", false⟩] : List PostSummary),
           pidNum q ≤ pidNum p)) :=
  ⟨⟨by decide, by decide⟩,
   first_run_selection (fun _ => true)
     [⟨"9", "pinned", "l3", true⟩, ⟨"7", "b", "l2", false⟩,
      ⟨"5", "a", "l1", false⟩] (by decide) (by decide)⟩

theorem anchorRecord_digits (a : Anchor) (p : PostSummary)
    (h : anchorRecord a = some p) : pyIsDigit p.id = true := by
  obtain ⟨ohref, st, pt⟩ := a
  rcases ohref with _ | href
  · simp [anchorRecord] at h
  · simp [anchorRecord] at h
    obtain ⟨_, _, hdig, hrec⟩ := h
    rw [← hrec]
    exact hdig

theorem collectPosts_cons_none (a : Anchor) (rest : List Anchor)
    (acc : List PostSummary) (seen : List String)
    (h : anchorRecord a = none) :
    collectPosts (a :: rest) acc seen = collectPosts rest acc seen := by
  rw [collectPosts, h]

theorem collectPosts_cons_seen (a : Anchor) (rest : List Anchor)
    (acc : List PostSummary) (seen : List String) (r : PostSummary)
    (h : anchorRecord a = some r) (hs : seen.contains r.id = true) :
    collectPosts (a :: rest) acc seen = collectPosts rest acc seen := by
  rw [collectPosts, h]
  simp [List.elem_iff.mp hs]

theorem collectPosts_cons_new (a : Anchor) (rest : List Anchor)
    (acc : List PostSummary) (seen : List String) (r : PostSummary)
    (h : anchorRecord a = some r) (hs : seen.contains r.id = false) :
    collectPosts (a :: rest) acc seen =
      collectPosts rest (acc ++ [r]) (r.id :: seen) := by
  rw [collectPosts, h]
  have hmem : r.id ∉ seen := by
    intro hmem
    have hs2 : List.elem r.id seen = false := hs
    rw [List.elem_iff.mpr hmem] at hs2
    cases hs2
  simp [hmem]

theorem collectPosts_mem_inv (anchors : List Anchor) (acc : List PostSummary)
    (seen : List String) (p : PostSummary)
    (hp : p ∈ collectPosts anchors acc seen) :
    p ∈ acc ∨
      (p.id ∉ seen ∧
        ∃ l₁ a l₂, anchors = l₁ ++ a :: l₂ ∧ anchorRecord a = some p ∧
          ∀ b ∈ l₁, ∀ q, anchorRecord b = some q → q.id ≠ p.id) := by
  induction anchors generalizing acc seen with
  | nil => exact Or.inl hp
  | cons a rest ih =>
      rcases hrec : anchorRecord a with _ | r
      · rw [collectPosts_cons_none a rest acc seen hrec] at hp
        rcases ih acc seen hp with hacc | ⟨hns, l₁, b, l₂, hsplit, hb, hfirst⟩
        · exact Or.inl hacc
        · refine Or.inr ⟨hns, a :: l₁, b, l₂, by rw [hsplit]; rfl, hb, ?_⟩
          intro x hx q hq
          rcases List.mem_cons.mp hx with rfl | hx
          · rw [hrec] at hq; cases hq
          · exact hfirst x hx q hq
      · by_cases hseen : seen.contains r.id = true
        · rw [collectPosts_cons_seen a rest acc seen r hrec hseen] at hp
          rcases ih acc seen hp with hacc | ⟨hns, l₁, b, l₂, hsplit, hb, hfirst⟩
          · exact Or.inl hacc
          · refine Or.inr ⟨hns, a :: l₁, b, l₂, by rw [hsplit]; rfl, hb, ?_⟩
            intro x hx q hq
            rcases List.mem_cons.mp hx with rfl | hx
            · rw [hrec] at hq
              cases hq
              intro hid
              exact hns (hid ▸ List.elem_iff.mp hseen)
            · exact hfirst x hx q hq
        · rw [collectPosts_cons_new a rest acc seen r hrec
            (Bool.eq_false_iff.mpr hseen)] at hp
          rcases ih (acc ++ [r]) (r.id :: seen) hp with
            hacc | ⟨hns, l₁, b, l₂, hsplit, hb, hfirst⟩
          · rcases List.mem_append.mp hacc with hacc | hr
            · exact Or.inl hacc
            · rcases List.mem_singleton.mp hr with rfl
              refine Or.inr ⟨fun hmem => hseen (List.elem_iff.mpr hmem),
                [], a, rest, rfl, hrec, by simp⟩
          · have hns' : p.id ∉ seen := fun hmem => hns (List.mem_cons_of_mem _ hmem)
            have hnr : p.id ≠ r.id := by
              intro hid
              exact hns (hid ▸ List.mem_cons_self _ _)
            refine Or.inr ⟨hns', a :: l₁, b, l₂, by rw [hsplit]; rfl, hb, ?_⟩
            intro x hx q hq
            rcases List.mem_cons.mp hx with rfl | hx
            · rw [hrec] at hq
              cases hq
              exact fun hid => hnr hid.symm
            · exact hfirst x hx q hq

theorem collectPosts_nodup (anchors : List Anchor) (acc : List PostSummary)
    (seen : List String)
    (hacc : (acc.map (fun p => p.id)).Nodup)
    (hsub : ∀ p ∈ acc, p.id ∈ seen) :
    ((collectPosts anchors acc seen).map (fun p => p.id)).Nodup := by
  induction anchors generalizing acc seen with
  | nil => exact hacc
  | cons a rest ih =>
      rcases hrec : anchorRecord a with _ | r
      · rw [collectPosts_cons_none a rest acc seen hrec]
        exact ih acc seen hacc hsub
      · by_cases hseen : seen.contains r.id = true
        · rw [collectPosts_cons_seen a rest acc seen r hrec hseen]
          exact ih acc seen hacc hsub
        · rw [collectPosts_cons_new a rest acc seen r hrec
            (Bool.eq_false_iff.mpr hseen)]
          refine ih (acc ++ [r]) (r.id :: seen) ?_ ?_
          · rw [List.map_append, List.nodup_append]
            refine ⟨hacc, List.nodup_singleton _, ?_⟩
            intro x hx hxr
            rcases List.mem_singleton.mp hxr with rfl
            obtain ⟨q, hq, hqid⟩ := List.mem_map.mp hx
            have hqid2 : q.id = r.id := hqid
            exact hseen (List.elem_iff.mpr (hqid2 ▸ hsub q hq))
          · intro q hq
            rcases List.mem_append.mp hq with hq | hq
            · exact List.mem_cons_of_mem _ (hsub q hq)
            · rcases List.mem_singleton.mp hq with rfl
              exact List.mem_cons_self _ _

/-- C7: every summary the feed lister returns carries an entirely numeric id,
ids are pairwise distinct with the record coming from the first anchor (in
page order) that resolves to that id, and the returned list is sorted
descending by numeric id. -/
theorem feed_listing_characterization (anchors : List Anchor) :
    (∀ p ∈ crawl_latest_posts anchors, pyIsDigit p.id = true) ∧
    ((crawl_latest_posts anchors).map (fun p => p.id)).Nodup ∧
    (crawl_latest_posts anchors).Pairwise (fun a b => pidNum b ≤ pidNum a) ∧
    (∀ p ∈ crawl_latest_posts anchors,
      ∃ l₁ a l₂, anchors = l₁ ++ a :: l₂ ∧ anchorRecord a = some p ∧
        ∀ b ∈ l₁, ∀ q, anchorRecord b = some q → q.id ≠ p.id) := by
  have hmem : ∀ p, p ∈ crawl_latest_posts anchors ↔ p ∈ collectPosts anchors [] [] :=
    fun p => (sortDescById_perm (collectPosts anchors [] [])).mem_iff
  have hinv : ∀ p ∈ crawl_latest_posts anchors,
      ∃ l₁ a l₂, anchors = l₁ ++ a :: l₂ ∧ anchorRecord a = some p ∧
        ∀ b ∈ l₁, ∀ q, anchorRecord b = some q → q.id ≠ p.id := by
    intro p hp
    rcases collectPosts_mem_inv anchors [] [] p ((hmem p).mp hp) with hacc | ⟨_, h⟩
    · cases hacc
    · exact h
  refine ⟨?_, ?_, sortDescById_sorted _, hinv⟩
  · intro p hp
    obtain ⟨l₁, a, l₂, _, hrec, _⟩ := hinv p hp
    exact anchorRecord_digits a p hrec
  · have hperm := (sortDescById_perm (collectPosts anchors [] [])).map
      (fun p => p.id)
    exact hperm.symm.nodup (collectPosts_nodup anchors [] [] (by simp) (by simp))

/-- C7 witness: a feed page with a duplicate anchor, a non-numeric path
segment, and out-of-order ids. -/
theorem feed_listing_characterization_witness :
    (⟨"103", "제목 없음", "https://pf.kakao.com/_FNHuG/103", false⟩ : PostSummary) ∈
      crawl_latest_posts
        [⟨some "/_FNHuG/101", some "a", .ok ""⟩,
         ⟨some "/_FNHuG/abc", some "b", .ok ""⟩,
         ⟨some "/_FNHuG/103", none, .error "detached"⟩,
         ⟨some "/_FNHuG/101", some "dup", .ok ""⟩] ∧
    pyIsDigit (⟨"103", "제목 없음", "https://pf.kakao.com/_FNHuG/103", false⟩ :
      PostSummary).id = true :=
  ⟨by decide,
   (feed_listing_characterization
     [⟨some "/_FNHuG/101", some "a", .ok ""⟩,
      ⟨some "/_FNHuG/abc", some "b", .ok ""⟩,
      ⟨some "/_FNHuG/103", none, .error "detached"⟩,
      ⟨some "/_FNHuG/101", some "dup", .ok ""⟩]).1
     ⟨"103", "제목 없음", "https://pf.kakao.com/_FNHuG/103", false⟩ (by decide)⟩

/-- The local `cols = min(num_images, max_cols)` of `create_image_collage`
at the call site's `max_cols = 4`. -/
def collageCols (n : Nat) : Nat := min n 4

/-- The local `rows = math.ceil(num_images / cols)` of
`create_image_collage`, as a natural ceiling division. -/
def collageRows (n : Nat) : Nat := (n + collageCols n - 1) / collageCols n

theorem collageCols_pos (n : Nat) (h : 0 < n) : 0 < collageCols n := by
  simp only [collageCols]
  omega

theorem collageRows_le (n : Nat) (h : 0 < n) :
    n ≤ collageCols n * collageRows n := by
  have hc := collageCols_pos n h
  simp only [collageRows]
  have h1 := Nat.div_add_mod (n + collageCols n - 1) (collageCols n)
  have h2 := Nat.mod_lt (n + collageCols n - 1) hc
  omega

theorem collageRows_lt (n : Nat) (h : 0 < n) :
    collageCols n * (collageRows n - 1) < n := by
  have hc := collageCols_pos n h
  simp only [collageRows]
  have h1 := Nat.div_add_mod (n + collageCols n - 1) (collageCols n)
  have h2 := Nat.mod_lt (n + collageCols n - 1) hc
  have h3 : collageCols n * ((n + collageCols n - 1) / collageCols n - 1) =
      collageCols n * ((n + collageCols n - 1) / collageCols n) - collageCols n := by
    cases Nat.eq_zero_or_pos ((n + collageCols n - 1) / collageCols n) with
    | inl hz => simp [hz]
    | inr hp => rw [Nat.mul_sub_one]
  omega

/-- C9: for a non-empty set of successfully fetched images the collage uses
`cols = min(n, 4)` columns and `ceil(n / cols)` rows of 150-pixel cells on a
white canvas — enough cells for every image and no fully empty row — and the
i-th image is pasted at column `i mod cols`, row `i div cols`, centered by
the integer offsets `(150 - width) / 2` and `(150 - height) / 2`. -/
theorem collage_grid_arithmetic (fetch : String → Option (Nat × Nat))
    (image_urls : List String)
    (hne : image_urls.filterMap fetch ≠ []) :
    ∃ c, create_image_collage fetch image_urls 150 4 = some c ∧
      c.width = collageCols (image_urls.filterMap fetch).length * 150 ∧
      c.height = collageRows (image_urls.filterMap fetch).length * 150 ∧
      c.background = (255, 255, 255) ∧
      (image_urls.filterMap fetch).length ≤
        collageCols (image_urls.filterMap fetch).length *
          collageRows (image_urls.filterMap fetch).length ∧
      collageCols (image_urls.filterMap fetch).length *
          (collageRows (image_urls.filterMap fetch).length - 1) <
        (image_urls.filterMap fetch).length ∧
      c.placements.length = (image_urls.filterMap fetch).length ∧
      ∀ i wh, (image_urls.filterMap fetch)[i]? = some wh →
        c.placements[i]? = some
          ((((i % collageCols (image_urls.filterMap fetch).length) * 150 : Nat) : Int) +
             Int.fdiv ((150 : Int) - (wh.1 : Int)) 2,
           (((i / collageCols (image_urls.filterMap fetch).length) * 150 : Nat) : Int) +
             Int.fdiv ((150 : Int) - (wh.2 : Int)) 2) := by
  have hn : 0 < (image_urls.filterMap fetch).length := List.length_pos.mpr hne
  have hmain : create_image_collage fetch image_urls 150 4 =
      some
        ⟨collageCols (image_urls.filterMap fetch).length * 150,
         collageRows (image_urls.filterMap fetch).length * 150,
         (255, 255, 255),
         (image_urls.filterMap fetch).enum.map (fun iwh =>
           ((((iwh.1 % collageCols (image_urls.filterMap fetch).length) * 150 : Nat) : Int) +
              Int.fdiv ((150 : Int) - (iwh.2.1 : Int)) 2,
            (((iwh.1 / collageCols (image_urls.filterMap fetch).length) * 150 : Nat) : Int) +
              Int.fdiv ((150 : Int) - (iwh.2.2 : Int)) 2))⟩ := by
    simp only [create_image_collage, collageCols, collageRows]
    rw [if_neg (by simp [List.isEmpty_iff, hne])]
    norm_num
  refine ⟨_, hmain, rfl, rfl, rfl,
    collageRows_le _ hn, collageRows_lt _ hn,
    by simp [List.enum_length], ?_⟩
  intro i wh hwh
  simp [List.getElem?_map, List.getElem?_enum, hwh]

/-- C9 witness: five fetched thumbnails of size 150 x 100. -/
theorem collage_grid_arithmetic_witness :
    ((["u1", "u2", "u3", "u4", "u5"] : List String).filterMap
        (fun _ => some ((150, 100) : Nat × Nat)) ≠ []) ∧
    ∃ c, create_image_collage (fun _ => some ((150, 100) : Nat × Nat))
        ["u1", "u2", "u3", "u4", "u5"] 150 4 = some c ∧
      c.width = collageCols ((["u1", "u2", "u3", "u4", "u5"] : List String).filterMap
        (fun _ => some ((150, 100) : Nat × Nat))).length * 150 ∧
      c.height = collageRows ((["u1", "u2", "u3", "u4", "u5"] : List String).filterMap
        (fun _ => some ((150, 100) : Nat × Nat))).length * 150 ∧
      c.background = (255, 255, 255) ∧
      ((["u1", "u2", "u3", "u4", "u5"] : List String).filterMap
          (fun _ => some ((150, 100) : Nat × Nat))).length ≤
        collageCols ((["u1", "u2", "u3", "u4", "u5"] : List String).filterMap
            (fun _ => some ((150, 100) : Nat × Nat))).length *
          collageRows ((["u1", "u2", "u3", "u4", "u5"] : List String).filterMap
            (fun _ => some ((150, 100) : Nat × Nat))).length ∧
      collageCols ((["u1", "u2", "u3", "u4", "u5"] : List String).filterMap
          (fun _ => some ((150, 100) : Nat × Nat))).length *
          (collageRows ((["u1", "u2", "u3", "u4", "u5"] : List String).filterMap
            (fun _ => some ((150, 100) : Nat × Nat))).length - 1) <
        ((["u1", "u2", "u3", "u4", "u5"] : List String).filterMap
          (fun _ => some ((150, 100) : Nat × Nat))).length ∧
      c.placements.length = ((["u1", "u2", "u3", "u4", "u5"] : List String).filterMap
        (fun _ => some ((150, 100) : Nat × Nat))).length ∧
      ∀ i wh, ((["u1", "u2", "u3", "u4", "u5"] : List String).filterMap
          (fun _ => some ((150, 100) : Nat × Nat)))[i]? = some wh →
        c.placements[i]? = some
          ((((i % collageCols ((["u1", "u2", "u3", "u4", "u5"] : List String).filterMap
              (fun _ => some ((150, 100) : Nat × Nat))).length) * 150 : Nat) : Int) +
             Int.fdiv ((150 : Int) - (wh.1 : Int)) 2,
           (((i / collageCols ((["u1", "u2", "u3", "u4", "u5"] : List String).filterMap
              (fun _ => some ((150, 100) : Nat × Nat))).length) * 150 : Nat) : Int) +
             Int.fdiv ((150 : Int) - (wh.2 : Int)) 2) :=
  ⟨by decide,
   collage_grid_arithmetic (fun _ => some ((150, 100) : Nat × Nat))
     ["u1", "u2", "u3", "u4", "u5"] (by decide)⟩

/-- C5: zero image URLs yield a message with no media block at all; one or
two yield one pass-through image block each, URL forwarded unchanged apart
from the `http://` to `https://` normalization; three or more with a collage
or upload failure yield no image block and a text section stating the
original image count. -/
theorem media_tiering (t l c : String) (m : List String) (u v : String)
    (urls : List String) (co : CollageOutcome) (h3 : 3 ≤ urls.length) :
    send_slack_blocks t l c m [] co =
      [Block.header ("📢 " ++ t)] ++
        (if c ≠ "" then [Block.section c] else []) ++
        (if m ≠ [] then
          [Block.divider, Block.section ("*🍽️ 오늘의 메뉴*\n" ++ joinSep " • " m)]
         else []) ++
        [Block.divider, Block.actions l, Block.context] ∧
    imagesOf (send_slack_blocks t l c m [u] co) = [normalizeUrl u] ∧
    imagesOf (send_slack_blocks t l c m [u, v] co) =
      [normalizeUrl u, normalizeUrl v] ∧
    imagesOf (send_slack_blocks t l c m urls (some none)) = [] ∧
    Block.section ("_이미지 " ++ toString urls.length ++ "개 (업로드 실패)_") ∈
      send_slack_blocks t l c m urls (some none) ∧
    imagesOf (send_slack_blocks t l c m urls none) = [] ∧
    Block.section ("_이미지 " ++ toString urls.length ++ "개 (콜라주 생성 실패)_") ∈
      send_slack_blocks t l c m urls none := by
  have hurls : urls ≠ [] := by
    intro h
    rw [h] at h3
    simp at h3
  have hgt : ¬ urls.length ≤ 2 := by omega
  by_cases hc : c = "" <;> by_cases hm : m = [] <;>
    refine ⟨?_, ?_, ?_, ?_, ?_, ?_, ?_⟩ <;>
    simp [send_slack_blocks, imagesOf, hc, hm, hurls, hgt,
      List.filterMap_append, List.enum, List.enumFrom]

/-- C5 witness: the spec's five-image upload-failure scenario, plus the
two-image pass-through, at concrete inputs. -/
theorem media_tiering_witness :
    (3 ≤ (["i1", "i2", "i3", "i4", "i5"] : List String).length) ∧
    (send_slack_blocks "T" "L" "" [] [] none =
      [Block.header ("📢 " ++ "T")] ++
        (if ("" : String) ≠ "" then [Block.section ""] else []) ++
        (if ([] : List String) ≠ [] then
          [Block.divider, Block.section ("*🍽️ 오늘의 메뉴*\n" ++ joinSep " • " [])]
         else []) ++
        [Block.divider, Block.actions "L", Block.context] ∧
    imagesOf (send_slack_blocks "T" "L" "" [] ["http://a"] none) =
      [normalizeUrl "http://a"] ∧
    imagesOf (send_slack_blocks "T" "L" "" [] ["http://a", "https://b"] none) =
      [normalizeUrl "http://a", normalizeUrl "https://b"] ∧
    imagesOf (send_slack_blocks "T" "L" "" []
      ["i1", "i2", "i3", "i4", "i5"] (some none)) = [] ∧
    Block.section ("_이미지 " ++ toString (["i1", "i2", "i3", "i4", "i5"] :
        List String).length ++ "개 (업로드 실패)_") ∈
      send_slack_blocks "T" "L" "" [] ["i1", "i2", "i3", "i4", "i5"] (some none) ∧
    imagesOf (send_slack_blocks "T" "L" "" []
      ["i1", "i2", "i3", "i4", "i5"] none) = [] ∧
    Block.section ("_이미지 " ++ toString (["i1", "i2", "i3", "i4", "i5"] :
        List String).length ++ "개 (콜라주 생성 실패)_") ∈
      send_slack_blocks "T" "L" "" [] ["i1", "i2", "i3", "i4", "i5"] none) :=
  ⟨by decide,
   media_tiering "T" "L" "" [] "http://a" "https://b"
     ["i1", "i2", "i3", "i4", "i5"] none (by decide)⟩
